import Mathlib

/-
Verification of the StrategySubgraph event-projection mapping
(`src/mapping.ts`): a shallow embedding of the nine event handlers over an
explicit keyed entity store, together with proofs and refutations of the
specified invariants.

Entity ids in the source are strings: Transaction ids are decimal strings of
the sequence counter, prize ids are `{day}-lottery` / `{day}-auction`, user
ids are hex strings of addresses.  All of these renderings are injective, so
the stores are modelled as association lists keyed by the underlying numeric
value (Nat for transactions and users, Int for days, a pair for bids).
Addresses are modelled as their numeric value (hex-string comparison in the
source is equivalent with numeric equality).  BigInt amounts are Nat (event
parameters are unsigned and only added).
-/

set_option maxRecDepth 4000

namespace StrategySubgraph

abbrev Address := Nat

def ADDRESS_ZERO : Address := 0

def FEES_POOL_ADDRESS : Address := 0x00000000000fee50000000add2e5500000000000

def MAX_TRANSACTIONS : Nat := 10

def MAX_PRIZES : Int := 7

/-- Block/transaction metadata attached on every event. -/
structure EventMeta where
  timestamp : Nat
  blockNumber : Nat
  txHash : Nat
  logIndex : Nat
  deriving DecidableEq

inductive TxType where
  | MINT
  | REDEEM
  | TRANSFER
  deriving DecidableEq

structure Transaction where
  id : Nat
  type : TxType
  user : Address
  monAmount : Nat
  stratAmount : Nat
  fee : Nat
  timestamp : Nat
  blockNumber : Nat
  txHash : Nat
  userEntity : Address
  deriving DecidableEq

structure LotteryPrize where
  day : Int
  winner : Address
  amount : Nat
  claimed : Bool
  expired : Bool
  timestamp : Nat
  blockNumber : Nat
  txHash : Nat
  claimTimestamp : Option Nat
  claimTxHash : Option Nat
  expiryTimestamp : Option Nat
  expiryTxHash : Option Nat
  beneficiary : Option Address
  user : Address
  deriving DecidableEq

structure AuctionPrize where
  day : Int
  winner : Address
  stratAmount : Nat
  monPaid : Nat
  claimed : Bool
  expired : Bool
  timestamp : Nat
  blockNumber : Nat
  txHash : Nat
  claimTimestamp : Option Nat
  claimTxHash : Option Nat
  expiryTimestamp : Option Nat
  expiryTxHash : Option Nat
  beneficiary : Option Address
  bidCount : Nat
  user : Address
  deriving DecidableEq

structure User where
  address : Address
  totalLotteryWinnings : Nat
  totalAuctionWinnings : Nat
  totalAuctionSpent : Nat
  lotteryWinCount : Nat
  auctionWinCount : Nat
  totalMinted : Nat
  totalRedeemed : Nat
  transactionCount : Nat
  deriving DecidableEq

structure ProtocolStats where
  totalLotteryPrizes : Nat
  totalAuctionPrizes : Nat
  totalLotteryClaimed : Nat
  totalAuctionClaimed : Nat
  totalLotteryExpired : Nat
  totalAuctionExpired : Nat
  lotteryCount : Nat
  auctionCount : Nat
  totalMinted : Nat
  totalRedeemed : Nat
  totalFees : Nat
  totalTransactions : Nat
  transactionCounter : Nat
  deriving DecidableEq

structure Bid where
  bidder : Address
  amount : Nat
  day : Int
  timestamp : Nat
  blockNumber : Nat
  txHash : Nat
  auction : Int
  deriving DecidableEq

/-- The persistent entity store: one keyed table per entity kind, plus the
ProtocolStats singleton. -/
structure Store where
  txs : List (Nat × Transaction)
  lotteries : List (Int × LotteryPrize)
  auctions : List (Int × AuctionPrize)
  users : List (Address × User)
  bids : List ((Nat × Nat) × Bid)
  stats : Option ProtocolStats
  deriving DecidableEq

def emptyStore : Store :=
  { txs := [], lotteries := [], auctions := [], users := [], bids := [], stats := none }

/-- Store load-by-key. -/
def lookupK {κ α : Type} [DecidableEq κ] (k : κ) : List (κ × α) → Option α
  | [] => none
  | kv :: rest => if kv.1 = k then some kv.2 else lookupK k rest

/-- Store delete-by-key (`store.remove`). -/
def eraseK {κ α : Type} [DecidableEq κ] (k : κ) (l : List (κ × α)) : List (κ × α) :=
  l.filter (fun kv => decide (kv.1 ≠ k))

/-- Store save-by-key (`entity.save()`), a full overwrite of the key. -/
def setK {κ α : Type} [DecidableEq κ] (k : κ) (v : α) (l : List (κ × α)) : List (κ × α) :=
  (k, v) :: eraseK k l

def newUser (a : Address) : User :=
  { address := a, totalLotteryWinnings := 0, totalAuctionWinnings := 0
    totalAuctionSpent := 0, lotteryWinCount := 0, auctionWinCount := 0
    totalMinted := 0, totalRedeemed := 0, transactionCount := 0 }

def getOrCreateUser (a : Address) (s : Store) : User × Store :=
  match lookupK a s.users with
  | some u => (u, s)
  | none => (newUser a, { s with users := setK a (newUser a) s.users })

def initialProtocolStats : ProtocolStats :=
  { totalLotteryPrizes := 0, totalAuctionPrizes := 0, totalLotteryClaimed := 0
    totalAuctionClaimed := 0, totalLotteryExpired := 0, totalAuctionExpired := 0
    lotteryCount := 0, auctionCount := 0, totalMinted := 0, totalRedeemed := 0
    totalFees := 0, totalTransactions := 0, transactionCounter := 0 }

def getOrCreateProtocolStats (s : Store) : ProtocolStats × Store :=
  match s.stats with
  | some st => (st, s)
  | none => (initialProtocolStats, { s with stats := some initialProtocolStats })

/-- Stable insertion (after equal timestamps) used for modelling the
timestamp-comparator sort in `rotateTransactions`. -/
def insertByTs (t : Transaction) : List Transaction → List Transaction
  | [] => [t]
  | u :: us => if u.timestamp ≤ t.timestamp then u :: insertByTs t us else t :: u :: us

def sortByTs (l : List Transaction) : List Transaction :=
  l.foldl (fun acc t => insertByTs t acc) []

/-- The `while (true)` probe in `rotateTransactions`: load keys `0, 1, 2, …`
until a missing key.  A contiguous run of present keys has length at most
`txs.length`, so probing `txs.length + 1` candidate keys always reaches the
first missing key, exactly as the unbounded source loop does. -/
def probeTxs (txs : List (Nat × Transaction)) : List Transaction :=
  ((List.range (txs.length + 1)).takeWhile (fun i => (lookupK i txs).isSome)).filterMap
    (fun i => lookupK i txs)

def rotateTransactions (txs : List (Nat × Transaction)) : List (Nat × Transaction) :=
  let transactions := probeTxs txs
  if MAX_TRANSACTIONS ≤ transactions.length then
    ((sortByTs transactions).take (transactions.length - MAX_TRANSACTIONS + 1)).foldl
      (fun acc t => eraseK t.id acc) txs
  else txs

/-- The bounded backward deletion loop shared by the two prize rotations:
100 iterations starting at `dayToCheck`, decrementing, stopping early when
the day goes negative. -/
def rotatePrizesGo {α : Type} (dayToCheck : Int) (fuel : Nat) (l : List (Int × α)) :
    List (Int × α) :=
  match fuel with
  | 0 => l
  | n + 1 =>
    if dayToCheck < 0 then l
    else rotatePrizesGo (dayToCheck - 1) n (eraseK dayToCheck l)

def rotateLotteryPrizes (currentDay : Int) (l : List (Int × LotteryPrize)) :
    List (Int × LotteryPrize) :=
  let oldestDayToKeep := currentDay - (MAX_PRIZES - 1)
  rotatePrizesGo (oldestDayToKeep - 1) 100 l

def rotateAuctionPrizes (currentDay : Int) (l : List (Int × AuctionPrize)) :
    List (Int × AuctionPrize) :=
  let oldestDayToKeep := currentDay - (MAX_PRIZES - 1)
  rotatePrizesGo (oldestDayToKeep - 1) 100 l

def mkLotteryPrize (day : Int) (winner : Address) (amount : Nat) (m : EventMeta) :
    LotteryPrize :=
  { day := day, winner := winner, amount := amount, claimed := false, expired := false
    timestamp := m.timestamp, blockNumber := m.blockNumber, txHash := m.txHash
    claimTimestamp := none, claimTxHash := none, expiryTimestamp := none
    expiryTxHash := none, beneficiary := none, user := winner }

def handleLotteryWon (day : Int) (winner : Address) (amount : Nat) (m : EventMeta)
    (s : Store) : Store :=
  let s1 := { s with lotteries := rotateLotteryPrizes day s.lotteries }
  let prize := mkLotteryPrize day winner amount m
  let us := getOrCreateUser winner s1
  let user1 := { us.1 with
      lotteryWinCount := us.1.lotteryWinCount + 1
      totalLotteryWinnings := us.1.totalLotteryWinnings + amount }
  let s3 := { us.2 with users := setK winner user1 us.2.users }
  let sp := getOrCreateProtocolStats s3
  let stats1 := { sp.1 with
      lotteryCount := sp.1.lotteryCount + 1
      totalLotteryPrizes := sp.1.totalLotteryPrizes + amount }
  let s5 := { sp.2 with stats := some stats1 }
  { s5 with lotteries := setK day prize s5.lotteries }

def mkAuctionPrize (day : Int) (winner : Address) (stratAmount monPaid : Nat)
    (m : EventMeta) : AuctionPrize :=
  { day := day, winner := winner, stratAmount := stratAmount, monPaid := monPaid
    claimed := false, expired := false, timestamp := m.timestamp
    blockNumber := m.blockNumber, txHash := m.txHash, claimTimestamp := none
    claimTxHash := none, expiryTimestamp := none, expiryTxHash := none
    beneficiary := none, bidCount := 0, user := winner }

def handleAuctionWon (day : Int) (winner : Address) (stratAmount monPaid : Nat)
    (m : EventMeta) (s : Store) : Store :=
  let s1 := { s with auctions := rotateAuctionPrizes day s.auctions }
  let prize := mkAuctionPrize day winner stratAmount monPaid m
  let us := getOrCreateUser winner s1
  let user1 := { us.1 with
      auctionWinCount := us.1.auctionWinCount + 1
      totalAuctionWinnings := us.1.totalAuctionWinnings + stratAmount
      totalAuctionSpent := us.1.totalAuctionSpent + monPaid }
  let s3 := { us.2 with users := setK winner user1 us.2.users }
  let sp := getOrCreateProtocolStats s3
  let stats1 := { sp.1 with
      auctionCount := sp.1.auctionCount + 1
      totalAuctionPrizes := sp.1.totalAuctionPrizes + stratAmount }
  let s5 := { sp.2 with stats := some stats1 }
  { s5 with auctions := setK day prize s5.auctions }

/-- The candidate day keys probed by the correlation scans: `0 .. 29` in
ascending order (the source's `for (let i = 0; i < 30; i++)`). -/
def scanDays : List Int :=
  [0, 1, 2, 3, 4, 5, 6, 7, 8, 9, 10, 11, 12, 13, 14,
   15, 16, 17, 18, 19, 20, 21, 22, 23, 24, 25, 26, 27, 28, 29]

/-- One iteration of the correlation loop: load the candidate key, test the
match predicate (a missing key or an unmatched record continues the loop). -/
def scanHit {α : Type} (pr : Int × α → Bool) (l : List (Int × α)) (i : Int) :
    Option (Int × α) :=
  match lookupK i l with
  | some v => if pr (i, v) then some (i, v) else none
  | none => none

/-- The bounded correlation scan: candidate keys `0 .. 29` in ascending
order, returning the first present record satisfying the match predicate. -/
def scanPrizes {α : Type} (pr : Int × α → Bool) (l : List (Int × α)) :
    Option (Int × α) :=
  scanDays.findSome? (scanHit pr l)

def lotteryClaimMatch (winner : Address) (amount : Nat) (p : LotteryPrize) : Bool :=
  decide (p.winner = winner ∧ p.amount = amount ∧ p.claimed = false ∧ p.expired = false)

def auctionClaimMatch (winner : Address) (amount : Nat) (p : AuctionPrize) : Bool :=
  decide (p.winner = winner ∧ p.stratAmount = amount ∧ p.claimed = false ∧
    p.expired = false)

def handlePrizeClaimed (winner : Address) (amount : Nat) (m : EventMeta)
    (s : Store) : Store :=
  match scanPrizes (fun kp => lotteryClaimMatch winner amount kp.2) s.lotteries with
  | some dp =>
    let p1 := { dp.2 with
        claimed := true
        claimTimestamp := some m.timestamp
        claimTxHash := some m.txHash }
    let s1 := { s with lotteries := setK dp.1 p1 s.lotteries }
    let sp := getOrCreateProtocolStats s1
    let stats1 := { sp.1 with totalLotteryClaimed := sp.1.totalLotteryClaimed + amount }
    { sp.2 with stats := some stats1 }
  | none =>
    match scanPrizes (fun kp => auctionClaimMatch winner amount kp.2) s.auctions with
    | some dp =>
      let p1 := { dp.2 with
          claimed := true
          claimTimestamp := some m.timestamp
          claimTxHash := some m.txHash }
      let s1 := { s with auctions := setK dp.1 p1 s.auctions }
      let sp := getOrCreateProtocolStats s1
      let stats1 := { sp.1 with totalAuctionClaimed := sp.1.totalAuctionClaimed + amount }
      { sp.2 with stats := some stats1 }
    | none => s

def lotteryFundMatch (previousWinner : Address) (p : LotteryPrize) : Bool :=
  decide (p.winner = previousWinner ∧ p.claimed = false ∧ p.expired = false)

def auctionFundMatch (previousWinner : Address) (p : AuctionPrize) : Bool :=
  decide (p.winner = previousWinner ∧ p.claimed = false ∧ p.expired = false)

def handleBeneficiaryFunded (previousWinner beneficiary : Address) (amount : Nat)
    (m : EventMeta) (s : Store) : Store :=
  match scanPrizes (fun kp => lotteryFundMatch previousWinner kp.2) s.lotteries with
  | some dp =>
    let p1 := { dp.2 with
        expired := true
        expiryTimestamp := some m.timestamp
        expiryTxHash := some m.txHash
        beneficiary := some beneficiary }
    let s1 := { s with lotteries := setK dp.1 p1 s.lotteries }
    let sp := getOrCreateProtocolStats s1
    let stats1 := { sp.1 with
                    totalLotteryExpired := sp.1.totalLotteryExpired + dp.2.amount }
    { sp.2 with stats := some stats1 }
  | none =>
    match scanPrizes (fun kp => auctionFundMatch previousWinner kp.2) s.auctions with
    | some dp =>
      let p1 := { dp.2 with
          expired := true
          expiryTimestamp := some m.timestamp
          expiryTxHash := some m.txHash
          beneficiary := some beneficiary }
      let s1 := { s with auctions := setK dp.1 p1 s.auctions }
      let sp := getOrCreateProtocolStats s1
      let stats1 := { sp.1 with
                      totalAuctionExpired := sp.1.totalAuctionExpired + dp.2.stratAmount }
      { sp.2 with stats := some stats1 }
    | none => s

def handleAuctionStarted (day : Int) (stratAmount : Nat) (m : EventMeta)
    (s : Store) : Store :=
  match lookupK day s.auctions with
  | some _ => s
  | none =>
    let a : AuctionPrize :=
      { day := day, winner := ADDRESS_ZERO, stratAmount := stratAmount, monPaid := 0
        claimed := false, expired := false, timestamp := m.timestamp
        blockNumber := m.blockNumber, txHash := m.txHash, claimTimestamp := none
        claimTxHash := none, expiryTimestamp := none, expiryTxHash := none
        beneficiary := none, bidCount := 0, user := ADDRESS_ZERO }
    { s with auctions := setK day a s.auctions }

def handleBidPlaced (day : Int) (bidder : Address) (amount : Nat) (m : EventMeta)
    (s : Store) : Store :=
  let b : Bid := { bidder := bidder, amount := amount, day := day
                   timestamp := m.timestamp, blockNumber := m.blockNumber
                   txHash := m.txHash, auction := day }
  let s1 :=
    match lookupK day s.auctions with
    | some a => { s with auctions := setK day { a with bidCount := a.bidCount + 1 } s.auctions }
    | none => s
  { s1 with bids := setK (m.txHash, m.logIndex) b s1.bids }

def handleMinted (toAddr : Address) (monAmount stratAmount fee : Nat) (m : EventMeta)
    (s : Store) : Store :=
  let s1 := { s with txs := rotateTransactions s.txs }
  let sp := getOrCreateProtocolStats s1
  let id := sp.1.transactionCounter
  let tx : Transaction :=
    { id := id, type := TxType.MINT, user := toAddr, monAmount := monAmount
      stratAmount := stratAmount, fee := fee, timestamp := m.timestamp
      blockNumber := m.blockNumber, txHash := m.txHash, userEntity := toAddr }
  let us := getOrCreateUser toAddr sp.2
  let user1 := { us.1 with
      totalMinted := us.1.totalMinted + stratAmount
      transactionCount := us.1.transactionCount + 1 }
  let s3 := { us.2 with users := setK toAddr user1 us.2.users }
  let stats1 := { sp.1 with
      totalMinted := sp.1.totalMinted + stratAmount
      totalFees := sp.1.totalFees + fee
      totalTransactions := sp.1.totalTransactions + 1
      transactionCounter := sp.1.transactionCounter + 1 }
  let s4 := { s3 with stats := some stats1 }
  { s4 with txs := setK id tx s4.txs }

def handleRedeemed (somefrom : Address) (monAmount stratAmount fee : Nat)
    (m : EventMeta) (s : Store) : Store :=
  let s1 := { s with txs := rotateTransactions s.txs }
  let sp := getOrCreateProtocolStats s1
  let id := sp.1.transactionCounter
  let tx : Transaction :=
    { id := id, type := TxType.REDEEM, user := somefrom, monAmount := monAmount
      stratAmount := stratAmount, fee := fee, timestamp := m.timestamp
      blockNumber := m.blockNumber, txHash := m.txHash, userEntity := somefrom }
  let us := getOrCreateUser somefrom sp.2
  let user1 := { us.1 with
      totalRedeemed := us.1.totalRedeemed + stratAmount
      transactionCount := us.1.transactionCount + 1 }
  let s3 := { us.2 with users := setK somefrom user1 us.2.users }
  let stats1 := { sp.1 with
      totalRedeemed := sp.1.totalRedeemed + stratAmount
      totalFees := sp.1.totalFees + fee
      totalTransactions := sp.1.totalTransactions + 1
      transactionCounter := sp.1.transactionCounter + 1 }
  let s4 := { s3 with stats := some stats1 }
  { s4 with txs := setK id tx s4.txs }

def handleTransfer (somefrom toAddr : Address) (value : Nat) (m : EventMeta)
    (s : Store) : Store :=
  if toAddr ≠ FEES_POOL_ADDRESS then s
  else if somefrom = ADDRESS_ZERO then s
  else
    let s1 := { s with txs := rotateTransactions s.txs }
    let sp := getOrCreateProtocolStats s1
    let id := sp.1.transactionCounter
    let tx : Transaction :=
      { id := id, type := TxType.TRANSFER, user := somefrom, monAmount := 0
        stratAmount := value, fee := 0, timestamp := m.timestamp
        blockNumber := m.blockNumber, txHash := m.txHash, userEntity := somefrom }
    let us := getOrCreateUser somefrom sp.2
    let user1 := { us.1 with transactionCount := us.1.transactionCount + 1 }
    let s3 := { us.2 with users := setK somefrom user1 us.2.users }
    let stats1 := { sp.1 with
        totalTransactions := sp.1.totalTransactions + 1
        transactionCounter := sp.1.transactionCounter + 1 }
    let s4 := { s3 with stats := some stats1 }
    { s4 with txs := setK id tx s4.txs }

inductive Event where
  | lotteryWon (day : Int) (winner : Address) (amount : Nat) (m : EventMeta)
  | auctionWon (day : Int) (winner : Address) (stratAmount monPaid : Nat) (m : EventMeta)
  | auctionStarted (day : Int) (stratAmount : Nat) (m : EventMeta)
  | bidPlaced (day : Int) (bidder : Address) (amount : Nat) (m : EventMeta)
  | prizeClaimed (winner : Address) (amount : Nat) (m : EventMeta)
  | beneficiaryFunded (previousWinner beneficiary : Address) (amount : Nat) (m : EventMeta)
  | minted (toAddr : Address) (monAmount stratAmount fee : Nat) (m : EventMeta)
  | redeemed (somefrom : Address) (monAmount stratAmount fee : Nat) (m : EventMeta)
  | transfer (somefrom toAddr : Address) (value : Nat) (m : EventMeta)
  deriving DecidableEq

/-- The event router: dispatch one event onto its handler. -/
def step (s : Store) (e : Event) : Store :=
  match e with
  | .lotteryWon d w a m => handleLotteryWon d w a m s
  | .auctionWon d w sa mp m => handleAuctionWon d w sa mp m s
  | .auctionStarted d sa m => handleAuctionStarted d sa m s
  | .bidPlaced d b a m => handleBidPlaced d b a m s
  | .prizeClaimed w a m => handlePrizeClaimed w a m s
  | .beneficiaryFunded pw b a m => handleBeneficiaryFunded pw b a m s
  | .minted t ma sa f m => handleMinted t ma sa f m s
  | .redeemed f ma sa fe m => handleRedeemed f ma sa fe m s
  | .transfer f t v m => handleTransfer f t v m s

/-- The full projection: fold the event log over the empty store. -/
def processTrace (es : List Event) : Store :=
  es.foldl step emptyStore

/-! ### Association-list store lemmas -/

theorem lookupK_eraseK_self {κ α : Type} [DecidableEq κ] (k : κ) (l : List (κ × α)) :
    lookupK k (eraseK k l) = none := by
  induction l with
  | nil => rfl
  | cons kv rest ih =>
    by_cases hk : kv.1 = k
    · simpa [eraseK, List.filter_cons, hk] using ih
    · simpa [eraseK, List.filter_cons, hk, lookupK] using ih

theorem eraseK_cons {κ α : Type} [DecidableEq κ] (k : κ) (kv : κ × α)
    (l : List (κ × α)) :
    eraseK k (kv :: l) = if kv.1 = k then eraseK k l else kv :: eraseK k l := by
  by_cases hk : kv.1 = k <;> simp [eraseK, List.filter_cons, hk]

theorem lookupK_eraseK_of_ne {κ α : Type} [DecidableEq κ] {k k' : κ} (h : k' ≠ k)
    (l : List (κ × α)) : lookupK k' (eraseK k l) = lookupK k' l := by
  induction l with
  | nil => rfl
  | cons kv rest ih =>
    rw [eraseK_cons]
    by_cases hk : kv.1 = k
    · have hk' : ¬ kv.1 = k' := by rw [hk]; exact fun hh => h hh.symm
      rw [if_pos hk, lookupK, if_neg hk']
      exact ih
    · rw [if_neg hk, lookupK, lookupK]
      by_cases hk2 : kv.1 = k'
      · rw [if_pos hk2, if_pos hk2]
      · rw [if_neg hk2, if_neg hk2]
        exact ih

@[simp] theorem lookupK_setK_self {κ α : Type} [DecidableEq κ] (k : κ) (v : α)
    (l : List (κ × α)) : lookupK k (setK k v l) = some v := by
  simp [setK, lookupK]

theorem lookupK_setK_of_ne {κ α : Type} [DecidableEq κ] {k k' : κ} (h : k' ≠ k) (v : α)
    (l : List (κ × α)) : lookupK k' (setK k v l) = lookupK k' l := by
  have : k ≠ k' := fun hh => h hh.symm
  simp [setK, lookupK, this, lookupK_eraseK_of_ne h]

theorem mem_eraseK {κ α : Type} [DecidableEq κ] {k : κ} {l : List (κ × α)}
    {x : κ × α} : x ∈ eraseK k l ↔ x ∈ l ∧ x.1 ≠ k := by
  simp [eraseK, List.mem_filter]

theorem mem_setK {κ α : Type} [DecidableEq κ] {k : κ} {v : α} {l : List (κ × α)}
    {x : κ × α} : x ∈ setK k v l ↔ x = (k, v) ∨ (x ∈ l ∧ x.1 ≠ k) := by
  simp [setK, mem_eraseK]

theorem lookupK_mem {κ α : Type} [DecidableEq κ] {k : κ} {v : α} {l : List (κ × α)}
    (h : lookupK k l = some v) : (k, v) ∈ l := by
  induction l with
  | nil => cases h
  | cons kv rest ih =>
    by_cases hk : kv.1 = k
    · rw [lookupK, if_pos hk] at h
      obtain rfl : kv.2 = v := Option.some.inj h
      subst hk
      exact List.mem_cons_self _ _
    · rw [lookupK, if_neg hk] at h
      exact List.mem_cons_of_mem _ (ih h)

theorem isSome_lookupK_of_mem {κ α : Type} [DecidableEq κ] {k : κ} {v : α}
    {l : List (κ × α)} (h : (k, v) ∈ l) : (lookupK k l).isSome = true := by
  induction l with
  | nil => cases h
  | cons kv rest ih =>
    rcases List.mem_cons.1 h with h1 | h2
    · rw [← h1]
      simp [lookupK]
    · by_cases hk : kv.1 = k
      · simp [lookupK, hk]
      · simpa [lookupK, hk] using ih h2

/-! ### Rotation lemmas -/

theorem mem_rotatePrizesGo {α : Type} {x : Int × α} :
    ∀ (n : Nat) (c : Int) (l : List (Int × α)), x ∈ rotatePrizesGo c n l → x ∈ l := by
  intro n
  induction n with
  | zero => intro c l h; exact h
  | succ n ih =>
    intro c l h
    rw [rotatePrizesGo] at h
    by_cases hc : c < 0
    · rwa [if_pos hc] at h
    · rw [if_neg hc] at h
      exact (mem_eraseK.1 (ih _ _ h)).1

theorem lookupK_rotatePrizesGo_some {α : Type} {d : Int} {p : α} :
    ∀ (n : Nat) (c : Int) (l : List (Int × α)),
      lookupK d (rotatePrizesGo c n l) = some p → lookupK d l = some p := by
  intro n
  induction n with
  | zero => intro c l h; exact h
  | succ n ih =>
    intro c l h
    rw [rotatePrizesGo] at h
    by_cases hc : c < 0
    · rwa [if_pos hc] at h
    · rw [if_neg hc] at h
      have h2 := ih _ _ h
      by_cases hdc : d = c
      · rw [hdc, lookupK_eraseK_self] at h2
        cases h2
      · rwa [lookupK_eraseK_of_ne hdc] at h2

theorem lookupK_rotatePrizesGo_none {α : Type} {d : Int} :
    ∀ (n : Nat) (c : Int) (l : List (Int × α)), 0 ≤ d → c - n + 1 ≤ d → d ≤ c →
      lookupK d (rotatePrizesGo c n l) = none := by
  intro n
  induction n with
  | zero => intro c l h0 h1 h2; omega
  | succ n ih =>
    intro c l h0 h1 h2
    rw [rotatePrizesGo]
    have hc : ¬ c < 0 := by omega
    rw [if_neg hc]
    by_cases hdc : d = c
    · subst hdc
      cases hres : lookupK d (rotatePrizesGo (d - 1) n (eraseK d l)) with
      | none => rfl
      | some p =>
        have h2 := lookupK_rotatePrizesGo_some n _ _ hres
        rw [lookupK_eraseK_self] at h2
        cases h2
    · exact ih (c - 1) (eraseK c l) h0 (by omega) (by omega)

/-- Keys deleted by a prize rotation for day `D`: every `d` with
`0 ≤ d`, `D - 106 ≤ d` and `d ≤ D - 7` is gone afterwards. -/
theorem lookupK_rotateLotteryPrizes_none {d D : Int} (l : List (Int × LotteryPrize))
    (h0 : 0 ≤ d) (h1 : D - 106 ≤ d) (h2 : d ≤ D - 7) :
    lookupK d (rotateLotteryPrizes D l) = none := by
  apply lookupK_rotatePrizesGo_none 100 (D - (MAX_PRIZES - 1) - 1) l h0
  · simp only [MAX_PRIZES]; omega
  · simp only [MAX_PRIZES]; omega

/-! ### Correlation-scan lemmas -/

theorem findSome?_mem {α β : Type} {f : α → Option β} {b : β} :
    ∀ {l : List α}, l.findSome? f = some b → ∃ a, a ∈ l ∧ f a = some b := by
  intro l
  induction l with
  | nil => intro h; cases h
  | cons a rest ih =>
    intro h
    rw [List.findSome?_cons] at h
    cases hfa : f a with
    | some c =>
      rw [hfa] at h
      refine ⟨a, List.mem_cons_self _ _, ?_⟩
      rw [hfa]
      exact h
    | none =>
      rw [hfa] at h
      obtain ⟨x, hx, hfx⟩ := ih h
      exact ⟨x, List.mem_cons_of_mem _ hx, hfx⟩

theorem scanPrizes_eq_some {α : Type} {pr : Int × α → Bool} {l : List (Int × α)}
    {x : Int × α} (h : scanPrizes pr l = some x) :
    lookupK x.1 l = some x.2 ∧ pr x = true ∧ 0 ≤ x.1 ∧ x.1 < 30 := by
  obtain ⟨i, hi, hf⟩ := findSome?_mem h
  have hbound : ∀ j ∈ scanDays, 0 ≤ j ∧ j < 30 := by decide
  cases hlk : lookupK i l with
  | none => simp [scanHit, hlk] at hf
  | some v =>
    by_cases hpr : pr (i, v) = true
    · have hx : (i, v) = x := by simpa [scanHit, hlk, hpr] using hf
      refine ⟨?_, ?_, ?_, ?_⟩
      · rw [← hx]; exact hlk
      · rw [← hx]; exact hpr
      · rw [← hx]; exact (hbound i hi).1
      · rw [← hx]; exact (hbound i hi).2
    · simp [scanHit, hlk, hpr] at hf

/-! ### Store-component stability of the accessors and handlers -/

@[simp] theorem getOrCreateUser_txs (a : Address) (s : Store) :
    (getOrCreateUser a s).2.txs = s.txs := by
  unfold getOrCreateUser
  cases lookupK a s.users <;> rfl

@[simp] theorem getOrCreateUser_lotteries (a : Address) (s : Store) :
    (getOrCreateUser a s).2.lotteries = s.lotteries := by
  unfold getOrCreateUser
  cases lookupK a s.users <;> rfl

@[simp] theorem getOrCreateUser_auctions (a : Address) (s : Store) :
    (getOrCreateUser a s).2.auctions = s.auctions := by
  unfold getOrCreateUser
  cases lookupK a s.users <;> rfl

@[simp] theorem getOrCreateUser_stats (a : Address) (s : Store) :
    (getOrCreateUser a s).2.stats = s.stats := by
  unfold getOrCreateUser
  cases lookupK a s.users <;> rfl

@[simp] theorem getOrCreateUser_bids (a : Address) (s : Store) :
    (getOrCreateUser a s).2.bids = s.bids := by
  unfold getOrCreateUser
  cases lookupK a s.users <;> rfl

@[simp] theorem getOrCreateProtocolStats_txs (s : Store) :
    (getOrCreateProtocolStats s).2.txs = s.txs := by
  unfold getOrCreateProtocolStats
  cases s.stats <;> rfl

@[simp] theorem getOrCreateProtocolStats_lotteries (s : Store) :
    (getOrCreateProtocolStats s).2.lotteries = s.lotteries := by
  unfold getOrCreateProtocolStats
  cases s.stats <;> rfl

@[simp] theorem getOrCreateProtocolStats_auctions (s : Store) :
    (getOrCreateProtocolStats s).2.auctions = s.auctions := by
  unfold getOrCreateProtocolStats
  cases s.stats <;> rfl

@[simp] theorem getOrCreateProtocolStats_users (s : Store) :
    (getOrCreateProtocolStats s).2.users = s.users := by
  unfold getOrCreateProtocolStats
  cases s.stats <;> rfl

@[simp] theorem getOrCreateProtocolStats_bids (s : Store) :
    (getOrCreateProtocolStats s).2.bids = s.bids := by
  unfold getOrCreateProtocolStats
  cases s.stats <;> rfl

/-- The running sequence counter of a store (0 before the stats singleton is
first created, matching `getOrCreateProtocolStats`). -/
def counterOf (s : Store) : Nat :=
  match s.stats with
  | some st => st.transactionCounter
  | none => 0

/-- The cumulative claimed lottery total of a store. -/
def totalLotteryClaimedOf (s : Store) : Nat :=
  match s.stats with
  | some st => st.totalLotteryClaimed
  | none => 0

theorem getOrCreateProtocolStats_counter (s : Store) :
    (getOrCreateProtocolStats s).1.transactionCounter = counterOf s := by
  unfold getOrCreateProtocolStats counterOf
  cases s.stats <;> rfl

theorem handleLotteryWon_lotteries (d : Int) (w : Address) (a : Nat) (m : EventMeta)
    (s : Store) :
    (handleLotteryWon d w a m s).lotteries =
      setK d (mkLotteryPrize d w a m) (rotateLotteryPrizes d s.lotteries) := by
  simp [handleLotteryWon]

theorem handleLotteryWon_auctions (d : Int) (w : Address) (a : Nat) (m : EventMeta)
    (s : Store) : (handleLotteryWon d w a m s).auctions = s.auctions := by
  simp [handleLotteryWon]

theorem handleAuctionWon_auctions (d : Int) (w : Address) (sa mp : Nat) (m : EventMeta)
    (s : Store) :
    (handleAuctionWon d w sa mp m s).auctions =
      setK d (mkAuctionPrize d w sa mp m) (rotateAuctionPrizes d s.auctions) := by
  simp [handleAuctionWon]

theorem handleAuctionWon_lotteries (d : Int) (w : Address) (sa mp : Nat) (m : EventMeta)
    (s : Store) : (handleAuctionWon d w sa mp m s).lotteries = s.lotteries := by
  simp [handleAuctionWon]

theorem handleMinted_lotteries (t : Address) (ma sa f : Nat) (m : EventMeta)
    (s : Store) : (handleMinted t ma sa f m s).lotteries = s.lotteries := by
  simp [handleMinted]

theorem handleMinted_auctions (t : Address) (ma sa f : Nat) (m : EventMeta)
    (s : Store) : (handleMinted t ma sa f m s).auctions = s.auctions := by
  simp [handleMinted]

theorem handleRedeemed_lotteries (t : Address) (ma sa f : Nat) (m : EventMeta)
    (s : Store) : (handleRedeemed t ma sa f m s).lotteries = s.lotteries := by
  simp [handleRedeemed]

theorem handleRedeemed_auctions (t : Address) (ma sa f : Nat) (m : EventMeta)
    (s : Store) : (handleRedeemed t ma sa f m s).auctions = s.auctions := by
  simp [handleRedeemed]

theorem handleTransfer_lotteries (f t : Address) (v : Nat) (m : EventMeta)
    (s : Store) : (handleTransfer f t v m s).lotteries = s.lotteries := by
  unfold handleTransfer
  by_cases h1 : t ≠ FEES_POOL_ADDRESS
  · rw [if_pos h1]
  · rw [if_neg h1]
    by_cases h2 : f = ADDRESS_ZERO
    · rw [if_pos h2]
    · rw [if_neg h2]
      simp

theorem handleTransfer_auctions (f t : Address) (v : Nat) (m : EventMeta)
    (s : Store) : (handleTransfer f t v m s).auctions = s.auctions := by
  unfold handleTransfer
  by_cases h1 : t ≠ FEES_POOL_ADDRESS
  · rw [if_pos h1]
  · rw [if_neg h1]
    by_cases h2 : f = ADDRESS_ZERO
    · rw [if_pos h2]
    · rw [if_neg h2]
      simp

theorem handleAuctionStarted_lotteries (d : Int) (sa : Nat) (m : EventMeta)
    (s : Store) : (handleAuctionStarted d sa m s).lotteries = s.lotteries := by
  unfold handleAuctionStarted
  cases lookupK d s.auctions <;> rfl

theorem handleBidPlaced_lotteries (d : Int) (b : Address) (a : Nat) (m : EventMeta)
    (s : Store) : (handleBidPlaced d b a m s).lotteries = s.lotteries := by
  unfold handleBidPlaced
  cases lookupK d s.auctions <;> rfl

/-! ### Concrete traces used in the claim theorems -/

def mkMeta (k : Nat) : EventMeta :=
  { timestamp := k, blockNumber := k, txHash := k, logIndex := 0 }

/-- Twelve Minted events with strictly increasing timestamps. -/
def c1Trace : List Event :=
  (List.range 12).map (fun k => Event.minted 7 100 90 10 (mkMeta (k + 1)))

/-- C1: the claim asserts that after every event the number of live
Transaction records never exceeds 10, rotation achieving this by probing
keys 0, 1, 2, … and deleting the oldest-by-timestamp.  The code violates
this: processing the 11th mint deletes the oldest record, key 0, after
which the probe (which always starts at key 0) finds nothing, rotation is
permanently disabled, and the 12th mint leaves 11 live Transaction
records. -/
theorem c1_transaction_cap_exceeded :
    (processTrace c1Trace).txs.length = 11 ∧
      (processTrace (c1Trace.take 11)).txs.length = 10 := by
  constructor <;> decide

/-- AuctionStarted for day 3, one bid on day 3, then AuctionWon for day 3. -/
def c4Trace : List Event :=
  [Event.auctionStarted 3 50 (mkMeta 1), Event.bidPlaced 3 77 5 (mkMeta 2),
   Event.auctionWon 3 88 40 9 (mkMeta 3)]

/-- C4: the claim asserts that after AuctionStarted, n BidPlaced events and
AuctionWon for the same day, the day's AuctionPrize has bidCount = n.  The
code violates this: handleAuctionWon constructs a fresh record with
bidCount = 0, discarding the bid placed before the win (the record held
bidCount = 1 just before the win, 0 just after). -/
theorem c4_bid_count_reset :
    (lookupK (3 : Int) (processTrace (c4Trace.take 2)).auctions).map
        AuctionPrize.bidCount = some 1 ∧
      (lookupK (3 : Int) (processTrace c4Trace).auctions).map
        AuctionPrize.bidCount = some 0 := by
  constructor <;> decide

/-- Two LotteryWon events with strictly increasing days 0 and 200. -/
def c2Trace : List Event :=
  [Event.lotteryWon 0 3 5 (mkMeta 1), Event.lotteryWon 200 3 5 (mkMeta 2)]

/-- C2 counterexample: the claim asserts that for strictly increasing days,
after the win for day D no LotteryPrize record exists for any day ≤ D − 7.
With days 0 then 200 the rotation for day 200 only scans days 193 down to
94, so the day-0 record (0 ≤ 200 − 7) survives. -/
theorem c2_counterexample :
    (lookupK (0 : Int) (processTrace c2Trace).lotteries).isSome = true ∧
      (0 : Int) ≤ 200 - 7 := by
  constructor <;> decide

/-! ### Determinism of the projection (C3) -/

/-- A run of the projector: from store `s`, processing the events of the
list one at a time in order ends in the final store. -/
inductive RunFrom : Store → List Event → Store → Prop where
  | nil (s : Store) : RunFrom s [] s
  | cons (s : Store) (e : Event) (es : List Event) (t : Store) :
      RunFrom (step s e) es t → RunFrom s (e :: es) t

theorem RunFrom_eq_foldl {s t : Store} {es : List Event} (h : RunFrom s es t) :
    t = es.foldl step s := by
  induction h with
  | nil s => rfl
  | cons s e es t _ ih => simpa using ih

/-- C3: the projection is deterministic — any two runs of the same event
sequence from the empty store end in the same final store, for every
entity. -/
theorem c3_projection_deterministic (es : List Event) (t1 t2 : Store)
    (h1 : RunFrom emptyStore es t1) (h2 : RunFrom emptyStore es t2) : t1 = t2 := by
  rw [RunFrom_eq_foldl h1, RunFrom_eq_foldl h2]

/-- Witness for C3: two explicitly constructed runs of a two-event trace
from the empty store are equated by the determinism theorem. -/
theorem c3_projection_deterministic_witness :
    processTrace c4Trace = c4Trace.foldl step emptyStore := by
  have hrun : RunFrom emptyStore c4Trace (c4Trace.foldl step emptyStore) := by
    apply RunFrom.cons
    apply RunFrom.cons
    apply RunFrom.cons
    exact RunFrom.nil _
  exact c3_projection_deterministic c4Trace _ _ hrun hrun

/-! ### The lottery retention window (C2) -/

/-- A sequence of LotteryWon events whose days are strictly increasing,
each day at most 100 more than its predecessor (the bound imposed by the
code's 100-iteration backward scan; started at `prev = -1` it also forces
non-negative days). -/
def lotteryChain : Int → List Event → Bool
  | _, [] => true
  | prev, Event.lotteryWon d _ _ _ :: rest =>
      decide (prev < d) && decide (d ≤ prev + 100) && lotteryChain d rest
  | _, _ :: _ => false

/-- The lottery-day window invariant: every live lottery record's day is
non-negative and lies in `[prev - 6, prev]` for the last processed day. -/
def LotInv (prev : Int) (s : Store) : Prop :=
  ∀ kp ∈ s.lotteries, 0 ≤ kp.1 ∧ prev - 6 ≤ kp.1 ∧ kp.1 ≤ prev

theorem LotInv_step {prev D : Int} {s : Store} {w : Address} {a : Nat} {m : EventMeta}
    (hinv : LotInv prev s) (hprev : -1 ≤ prev) (h1 : prev < D) (h2 : D ≤ prev + 100) :
    LotInv D (step s (Event.lotteryWon D w a m)) := by
  intro kp hkp
  rw [show step s (Event.lotteryWon D w a m) = handleLotteryWon D w a m s from rfl,
    handleLotteryWon_lotteries] at hkp
  rcases mem_setK.1 hkp with h | ⟨hmem, hne⟩
  · rw [h]
    refine ⟨by omega, by omega, by omega⟩
  · simp only [rotateLotteryPrizes] at hmem
    have hmem0 : kp ∈ s.lotteries := mem_rotatePrizesGo 100 _ _ hmem
    obtain ⟨hb0, hb1, hb2⟩ := hinv kp hmem0
    refine ⟨hb0, ?_, by omega⟩
    by_contra hlt
    have hd7 : kp.1 ≤ D - 7 := by omega
    have hdel : lookupK kp.1 (rotateLotteryPrizes D s.lotteries) = none :=
      lookupK_rotateLotteryPrizes_none s.lotteries hb0 (by omega) hd7
    have hsome : (lookupK kp.1 (rotateLotteryPrizes D s.lotteries)).isSome = true := by
      apply isSome_lookupK_of_mem (v := kp.2)
      rw [Prod.mk.eta]
      simpa [rotateLotteryPrizes] using hmem
    rw [hdel] at hsome
    cases hsome

theorem LotInv_fold :
    ∀ (es : List Event) (prev : Int) (s : Store) (D : Int) (w : Address) (a : Nat)
      (m : EventMeta), -1 ≤ prev → LotInv prev s →
      lotteryChain prev (es ++ [Event.lotteryWon D w a m]) = true →
      LotInv D ((es ++ [Event.lotteryWon D w a m]).foldl step s) := by
  intro es
  induction es with
  | nil =>
    intro prev s D w a m hprev hinv hchain
    simp only [List.nil_append, List.foldl_cons, List.foldl_nil]
    simp only [List.nil_append, lotteryChain, Bool.and_eq_true, decide_eq_true_eq]
      at hchain
    exact LotInv_step hinv hprev hchain.1.1 hchain.1.2
  | cons e rest ih =>
    intro prev s D w a m hprev hinv hchain
    cases e with
    | lotteryWon d0 w0 a0 m0 =>
      simp only [List.cons_append, List.foldl_cons]
      simp only [List.cons_append, lotteryChain, Bool.and_eq_true, decide_eq_true_eq]
        at hchain
      exact ih d0 (step s (Event.lotteryWon d0 w0 a0 m0)) D w a m (by omega)
        (LotInv_step hinv hprev hchain.1.1 hchain.1.2) hchain.2
    | auctionWon d0 w0 sa mp m0 => simp [lotteryChain] at hchain
    | auctionStarted d0 sa m0 => simp [lotteryChain] at hchain
    | bidPlaced d0 b0 a0 m0 => simp [lotteryChain] at hchain
    | prizeClaimed w0 a0 m0 => simp [lotteryChain] at hchain
    | beneficiaryFunded pw b0 a0 m0 => simp [lotteryChain] at hchain
    | minted t0 ma sa f0 m0 => simp [lotteryChain] at hchain
    | redeemed f0 ma sa fe m0 => simp [lotteryChain] at hchain
    | transfer f0 t0 v0 m0 => simp [lotteryChain] at hchain

/-- A well-formed lottery sequence: only LotteryWon events, the first day
merely non-negative (otherwise unconstrained), and every later day
strictly above its predecessor by at most 100. -/
def lotteryStart : List Event → Bool
  | [] => true
  | Event.lotteryWon d _ _ _ :: rest => decide (0 ≤ d) && lotteryChain d rest
  | _ :: _ => false

/-- A well-formed lottery sequence is a chain from one day below its first
day (the empty store satisfies the window invariant for every starting
point, so the first day needs no gap bound of its own). -/
theorem lotteryChain_of_start {l : List Event} (h : lotteryStart l = true) :
    ∃ prev : Int, -1 ≤ prev ∧ lotteryChain prev l = true := by
  cases l with
  | nil => exact ⟨-1, by omega, rfl⟩
  | cons e rest =>
    cases e with
    | lotteryWon d0 w0 a0 m0 =>
      simp only [lotteryStart, Bool.and_eq_true, decide_eq_true_eq] at h
      refine ⟨d0 - 1, by omega, ?_⟩
      simp only [lotteryChain, Bool.and_eq_true, decide_eq_true_eq]
      exact ⟨⟨by omega, by omega⟩, h.2⟩
    | auctionWon d0 w0 sa mp m0 => simp [lotteryStart] at h
    | auctionStarted d0 sa m0 => simp [lotteryStart] at h
    | bidPlaced d0 b0 a0 m0 => simp [lotteryStart] at h
    | prizeClaimed w0 a0 m0 => simp [lotteryStart] at h
    | beneficiaryFunded pw b0 a0 m0 => simp [lotteryStart] at h
    | minted t0 ma sa f0 m0 => simp [lotteryStart] at h
    | redeemed f0 ma sa fe m0 => simp [lotteryStart] at h
    | transfer f0 t0 v0 m0 => simp [lotteryStart] at h

/-- C2 (amended): for every sequence of LotteryWon events with
non-negative, strictly increasing days where each day exceeds its
predecessor by at most 100 (the reach of the code's bounded 100-day
backward scan; the first day is unconstrained beyond non-negativity),
after processing the event for day D no LotteryPrize record exists for
any day ≤ D − 7. -/
theorem c2_rotation_window (es : List Event) (D : Int) (w : Address) (a : Nat)
    (m : EventMeta) (d : Int)
    (hchain : lotteryStart (es ++ [Event.lotteryWon D w a m]) = true)
    (hd : d ≤ D - 7) :
    lookupK d (processTrace (es ++ [Event.lotteryWon D w a m])).lotteries = none := by
  obtain ⟨prev, hprev, hchain2⟩ := lotteryChain_of_start hchain
  have hinv : LotInv D (processTrace (es ++ [Event.lotteryWon D w a m])) := by
    apply LotInv_fold es prev emptyStore D w a m hprev _ hchain2
    intro kp hkp
    cases hkp
  cases hres : lookupK d (processTrace (es ++ [Event.lotteryWon D w a m])).lotteries with
  | none => rfl
  | some p =>
    obtain ⟨h1, h2, h3⟩ := hinv (d, p) (lookupK_mem hres)
    omega

/-- Witness for C2: the chain day 150 then day 157 (a first day well above
100, gap 7) satisfies the hypotheses, and the day-150 record
(150 ≤ 157 − 7) is gone after the day-157 win. -/
theorem c2_rotation_window_witness :
    lotteryStart ([Event.lotteryWon 150 1 5 (mkMeta 1)] ++
        [Event.lotteryWon 157 1 5 (mkMeta 2)]) = true ∧
      lookupK (150 : Int) (processTrace ([Event.lotteryWon 150 1 5 (mkMeta 1)] ++
        [Event.lotteryWon 157 1 5 (mkMeta 2)])).lotteries = none :=
  ⟨by decide, c2_rotation_window [Event.lotteryWon 150 1 5 (mkMeta 1)] 157 1 5
    (mkMeta 2) 150 (by decide) (by decide)⟩

/-! ### Prize flag invariants (C8, C10) -/

/-- Per-record invariant for lottery entries: the stored day equals the
record key, the claimed and expired flags are never both set, and a record
keyed outside the correlation scan window (key ≥ 30) has both flags
clear. -/
def lotEntryOk (kp : Int × LotteryPrize) : Prop :=
  kp.2.day = kp.1 ∧ ¬(kp.2.claimed = true ∧ kp.2.expired = true) ∧
    (30 ≤ kp.1 → kp.2.claimed = false ∧ kp.2.expired = false)

/-- Per-record invariant for auction entries, as for `lotEntryOk`. -/
def aucEntryOk (kp : Int × AuctionPrize) : Prop :=
  kp.2.day = kp.1 ∧ ¬(kp.2.claimed = true ∧ kp.2.expired = true) ∧
    (30 ≤ kp.1 → kp.2.claimed = false ∧ kp.2.expired = false)

def PrizeInv (s : Store) : Prop :=
  (∀ kp ∈ s.lotteries, lotEntryOk kp) ∧ ∀ kp ∈ s.auctions, aucEntryOk kp

theorem PrizeInv_lotteryWon {s : Store} (h : PrizeInv s) (d : Int) (w : Address)
    (a : Nat) (m : EventMeta) : PrizeInv (handleLotteryWon d w a m s) := by
  constructor
  · intro kp hkp
    rw [handleLotteryWon_lotteries] at hkp
    rcases mem_setK.1 hkp with heq | ⟨hmem, -⟩
    · rw [heq]
      exact ⟨rfl, by simp [mkLotteryPrize], by simp [mkLotteryPrize]⟩
    · simp only [rotateLotteryPrizes] at hmem
      exact h.1 kp (mem_rotatePrizesGo 100 _ _ hmem)
  · intro kp hkp
    rw [handleLotteryWon_auctions] at hkp
    exact h.2 kp hkp

theorem PrizeInv_auctionWon {s : Store} (h : PrizeInv s) (d : Int) (w : Address)
    (sa mp : Nat) (m : EventMeta) : PrizeInv (handleAuctionWon d w sa mp m s) := by
  constructor
  · intro kp hkp
    rw [handleAuctionWon_lotteries] at hkp
    exact h.1 kp hkp
  · intro kp hkp
    rw [handleAuctionWon_auctions] at hkp
    rcases mem_setK.1 hkp with heq | ⟨hmem, -⟩
    · rw [heq]
      exact ⟨rfl, by simp [mkAuctionPrize], by simp [mkAuctionPrize]⟩
    · simp only [rotateAuctionPrizes] at hmem
      exact h.2 kp (mem_rotatePrizesGo 100 _ _ hmem)

theorem PrizeInv_auctionStarted {s : Store} (h : PrizeInv s) (d : Int) (sa : Nat)
    (m : EventMeta) : PrizeInv (handleAuctionStarted d sa m s) := by
  unfold handleAuctionStarted
  cases lookupK d s.auctions with
  | some a => exact h
  | none =>
    constructor
    · intro kp hkp
      exact h.1 kp hkp
    · intro kp hkp
      rcases mem_setK.1 hkp with heq | ⟨hmem, -⟩
      · rw [heq]
        exact ⟨rfl, by simp, by simp⟩
      · exact h.2 kp hmem

theorem PrizeInv_bidPlaced {s : Store} (h : PrizeInv s) (d : Int) (b : Address)
    (a : Nat) (m : EventMeta) : PrizeInv (handleBidPlaced d b a m s) := by
  unfold handleBidPlaced
  cases hlk : lookupK d s.auctions with
  | none => exact h
  | some p =>
    obtain ⟨hday, hflags, hhigh⟩ := h.2 (d, p) (lookupK_mem hlk)
    constructor
    · intro kp hkp
      exact h.1 kp hkp
    · intro kp hkp
      rcases mem_setK.1 hkp with heq | ⟨hmem, -⟩
      · rw [heq]
        exact ⟨hday, hflags, hhigh⟩
      · exact h.2 kp hmem

theorem PrizeInv_prizeClaimed {s : Store} (h : PrizeInv s) (w : Address) (a : Nat)
    (m : EventMeta) : PrizeInv (handlePrizeClaimed w a m s) := by
  unfold handlePrizeClaimed
  cases hscan : scanPrizes (fun kp => lotteryClaimMatch w a kp.2) s.lotteries with
  | some dp =>
    obtain ⟨hlk, hpr, hpos, hlt⟩ := scanPrizes_eq_some hscan
    obtain ⟨hday, -, -⟩ := h.1 (dp.1, dp.2) (by rw [Prod.mk.eta]; exact lookupK_mem hlk)
    rw [lotteryClaimMatch, decide_eq_true_eq] at hpr
    constructor
    · intro kp hkp
      simp only [getOrCreateProtocolStats_lotteries] at hkp
      rcases mem_setK.1 hkp with heq | ⟨hmem, -⟩
      · rw [heq]
        refine ⟨hday, ?_, ?_⟩
        · simp [hpr.2.2.2]
        · intro h30
          omega
      · exact h.1 kp hmem
    · intro kp hkp
      simp only [getOrCreateProtocolStats_auctions] at hkp
      exact h.2 kp hkp
  | none =>
    cases hscan2 : scanPrizes (fun kp => auctionClaimMatch w a kp.2) s.auctions with
    | some dp =>
      obtain ⟨hlk, hpr, hpos, hlt⟩ := scanPrizes_eq_some hscan2
      obtain ⟨hday, -, -⟩ := h.2 (dp.1, dp.2) (by rw [Prod.mk.eta]; exact lookupK_mem hlk)
      rw [auctionClaimMatch, decide_eq_true_eq] at hpr
      constructor
      · intro kp hkp
        simp only [getOrCreateProtocolStats_lotteries] at hkp
        exact h.1 kp hkp
      · intro kp hkp
        simp only [getOrCreateProtocolStats_auctions] at hkp
        rcases mem_setK.1 hkp with heq | ⟨hmem, -⟩
        · rw [heq]
          refine ⟨hday, ?_, ?_⟩
          · simp [hpr.2.2.2]
          · intro h30
            omega
        · exact h.2 kp hmem
    | none => exact h

theorem PrizeInv_beneficiaryFunded {s : Store} (h : PrizeInv s) (pw b : Address)
    (a : Nat) (m : EventMeta) : PrizeInv (handleBeneficiaryFunded pw b a m s) := by
  unfold handleBeneficiaryFunded
  cases hscan : scanPrizes (fun kp => lotteryFundMatch pw kp.2) s.lotteries with
  | some dp =>
    obtain ⟨hlk, hpr, hpos, hlt⟩ := scanPrizes_eq_some hscan
    obtain ⟨hday, -, -⟩ := h.1 (dp.1, dp.2) (by rw [Prod.mk.eta]; exact lookupK_mem hlk)
    rw [lotteryFundMatch, decide_eq_true_eq] at hpr
    constructor
    · intro kp hkp
      simp only [getOrCreateProtocolStats_lotteries] at hkp
      rcases mem_setK.1 hkp with heq | ⟨hmem, -⟩
      · rw [heq]
        refine ⟨hday, ?_, ?_⟩
        · simp [hpr.2.1]
        · intro h30
          omega
      · exact h.1 kp hmem
    · intro kp hkp
      simp only [getOrCreateProtocolStats_auctions] at hkp
      exact h.2 kp hkp
  | none =>
    cases hscan2 : scanPrizes (fun kp => auctionFundMatch pw kp.2) s.auctions with
    | some dp =>
      obtain ⟨hlk, hpr, hpos, hlt⟩ := scanPrizes_eq_some hscan2
      obtain ⟨hday, -, -⟩ := h.2 (dp.1, dp.2) (by rw [Prod.mk.eta]; exact lookupK_mem hlk)
      rw [auctionFundMatch, decide_eq_true_eq] at hpr
      constructor
      · intro kp hkp
        simp only [getOrCreateProtocolStats_lotteries] at hkp
        exact h.1 kp hkp
      · intro kp hkp
        simp only [getOrCreateProtocolStats_auctions] at hkp
        rcases mem_setK.1 hkp with heq | ⟨hmem, -⟩
        · rw [heq]
          refine ⟨hday, ?_, ?_⟩
          · simp [hpr.2.1]
          · intro h30
            omega
        · exact h.2 kp hmem
    | none => exact h

theorem PrizeInv_step {s : Store} (h : PrizeInv s) (e : Event) :
    PrizeInv (step s e) := by
  cases e with
  | lotteryWon d w a m => exact PrizeInv_lotteryWon h d w a m
  | auctionWon d w sa mp m => exact PrizeInv_auctionWon h d w sa mp m
  | auctionStarted d sa m => exact PrizeInv_auctionStarted h d sa m
  | bidPlaced d b a m => exact PrizeInv_bidPlaced h d b a m
  | prizeClaimed w a m => exact PrizeInv_prizeClaimed h w a m
  | beneficiaryFunded pw b a m => exact PrizeInv_beneficiaryFunded h pw b a m
  | minted t ma sa f m =>
    refine ⟨fun kp hkp => h.1 kp ?_, fun kp hkp => h.2 kp ?_⟩
    · simp only [step] at hkp
      rwa [handleMinted_lotteries] at hkp
    · simp only [step] at hkp
      rwa [handleMinted_auctions] at hkp
  | redeemed f ma sa fe m =>
    refine ⟨fun kp hkp => h.1 kp ?_, fun kp hkp => h.2 kp ?_⟩
    · simp only [step] at hkp
      rwa [handleRedeemed_lotteries] at hkp
    · simp only [step] at hkp
      rwa [handleRedeemed_auctions] at hkp
  | transfer f t v m =>
    refine ⟨fun kp hkp => h.1 kp ?_, fun kp hkp => h.2 kp ?_⟩
    · simp only [step] at hkp
      rwa [handleTransfer_lotteries] at hkp
    · simp only [step] at hkp
      rwa [handleTransfer_auctions] at hkp

theorem PrizeInv_foldl : ∀ (es : List Event) (s : Store), PrizeInv s →
    PrizeInv (es.foldl step s) := by
  intro es
  induction es with
  | nil => intro s h; exact h
  | cons e rest ih => intro s h; exact ih (step s e) (PrizeInv_step h e)

theorem PrizeInv_processTrace (es : List Event) : PrizeInv (processTrace es) := by
  apply PrizeInv_foldl es emptyStore
  exact ⟨fun kp hkp => (nomatch hkp), fun kp hkp => (nomatch hkp)⟩

/-- Decidable check: no prize record of either kind has both the claimed
and the expired flag set. -/
def flagsOkB (s : Store) : Bool :=
  s.lotteries.all (fun kp => !(kp.2.claimed && kp.2.expired)) &&
    s.auctions.all (fun kp => !(kp.2.claimed && kp.2.expired))

/-- C8: in every reachable state (after processing any event sequence from
the empty store) no LotteryPrize or AuctionPrize record has both its
claimed flag and its expired flag set: every record is created with both
flags clear, and the claim/expiry correlators only ever mark records that
are neither claimed nor expired. -/
theorem c8_claimed_xor_expired (es : List Event) :
    flagsOkB (processTrace es) = true := by
  obtain ⟨hl, ha⟩ := PrizeInv_processTrace es
  rw [flagsOkB, Bool.and_eq_true, List.all_eq_true, List.all_eq_true]
  constructor
  · intro kp hkp
    obtain ⟨-, h2, -⟩ := hl kp hkp
    cases hc : kp.2.claimed <;> cases he : kp.2.expired <;> simp_all
  · intro kp hkp
    obtain ⟨-, h2, -⟩ := ha kp hkp
    cases hc : kp.2.claimed <;> cases he : kp.2.expired <;> simp_all

/-- Decidable check: every prize record of either kind whose day is 30 or
more has both the claimed and the expired flag clear. -/
def highDayFreshB (s : Store) : Bool :=
  s.lotteries.all
    (fun kp => if 30 ≤ kp.2.day then !kp.2.claimed && !kp.2.expired else true) &&
    s.auctions.all
      (fun kp => if 30 ≤ kp.2.day then !kp.2.claimed && !kp.2.expired else true)

/-- C10: in every reachable state, every LotteryPrize or AuctionPrize
record whose day is 30 or greater has claimed = false and expired = false:
the claim and expiry correlators probe only the fixed keys 0 … 29, so a
prize for a day ≥ 30 can never be marked claimed or expired. -/
theorem c10_high_day_never_touched (es : List Event) :
    highDayFreshB (processTrace es) = true := by
  obtain ⟨hl, ha⟩ := PrizeInv_processTrace es
  rw [highDayFreshB, Bool.and_eq_true, List.all_eq_true, List.all_eq_true]
  constructor
  · intro kp hkp
    obtain ⟨h1, -, h3⟩ := hl kp hkp
    by_cases hd : 30 ≤ kp.2.day
    · rw [if_pos hd]
      obtain ⟨hc, he⟩ := h3 (by rw [← h1]; exact hd)
      simp [hc, he]
    · rw [if_neg hd]
  · intro kp hkp
    obtain ⟨h1, -, h3⟩ := ha kp hkp
    by_cases hd : 30 ≤ kp.2.day
    · rw [if_pos hd]
      obtain ⟨hc, he⟩ := h3 (by rw [← h1]; exact hd)
      simp [hc, he]
    · rw [if_neg hd]

/-! ### Placeholder auctions and bid counting (C9) -/

/-- C9: AuctionStarted for day 3 with no prior record creates a placeholder
AuctionPrize with winner = zero address, zero paid amount and bidCount = 0;
a subsequent BidPlaced for day 3 increments that record's bidCount to 1;
and an AuctionStarted for a day that already has a record leaves the store
unchanged. -/
theorem c9_auction_placeholder (T : Nat) (m1 : EventMeta) (b : Address) (amt : Nat)
    (m2 : EventMeta) (T2 : Nat) (m3 : EventMeta) :
    ((lookupK (3 : Int) (processTrace [Event.auctionStarted 3 T m1]).auctions).map
        (fun p => (p.winner, p.monPaid, p.bidCount, p.stratAmount)) =
      some (ADDRESS_ZERO, 0, 0, T)) ∧
    ((lookupK (3 : Int) (step (processTrace [Event.auctionStarted 3 T m1])
        (Event.bidPlaced 3 b amt m2)).auctions).map (fun p => p.bidCount) = some 1) ∧
    step (processTrace [Event.auctionStarted 3 T m1]) (Event.auctionStarted 3 T2 m3) =
      processTrace [Event.auctionStarted 3 T m1] :=
  ⟨rfl, rfl, rfl⟩

/-! ### Claim correlation and duplicate claims (C5) -/

theorem lotteryClaimMatch_mk (w : Address) (a : Nat) (d : Int) (m : EventMeta) :
    lotteryClaimMatch w a (mkLotteryPrize d w a m) = true := by
  simp [lotteryClaimMatch, mkLotteryPrize]

theorem findSome?_eq_none_of {α β : Type} {f : α → Option β} :
    ∀ {l : List α}, (∀ x ∈ l, f x = none) → l.findSome? f = none := by
  intro l
  induction l with
  | nil => intro h; rfl
  | cons a rest ih =>
    intro h
    rw [List.findSome?_cons, h a (List.mem_cons_self a rest)]
    exact ih (fun x hx => h x (List.mem_cons_of_mem _ hx))

/-- If every lottery record in the table is already claimed, the claim
correlation scan finds no match. -/
theorem scanPrizes_lotteryClaim_none {w : Address} {a : Nat}
    {l : List (Int × LotteryPrize)} (h : ∀ kp ∈ l, kp.2.claimed = true) :
    scanPrizes (fun kp => lotteryClaimMatch w a kp.2) l = none := by
  apply findSome?_eq_none_of
  intro i hi
  rw [scanHit]
  cases hlk : lookupK i l with
  | none => rfl
  | some v =>
    have hv : v.claimed = true := h (i, v) (lookupK_mem hlk)
    simp [lotteryClaimMatch, hv]

/-- C5: LotteryWon for day 5 (winner W, amount A) followed by PrizeClaimed
(W, A) marks the day-5 record claimed, stamps its claim timestamp and
claim transaction hash, and raises totalLotteryClaimed by exactly A; a
second identical PrizeClaimed finds no unclaimed match and leaves the
whole store unchanged. -/
theorem c5_claim_then_duplicate_noop (W : Address) (A : Nat) (m1 m2 m3 : EventMeta) :
    ((lookupK (5 : Int) (step (processTrace [Event.lotteryWon 5 W A m1])
        (Event.prizeClaimed W A m2)).lotteries).map
        (fun p => (p.claimed, p.claimTimestamp, p.claimTxHash)) =
      some (true, some m2.timestamp, some m2.txHash)) ∧
    totalLotteryClaimedOf (step (processTrace [Event.lotteryWon 5 W A m1])
        (Event.prizeClaimed W A m2)) =
      totalLotteryClaimedOf (processTrace [Event.lotteryWon 5 W A m1]) + A ∧
    step (step (processTrace [Event.lotteryWon 5 W A m1]) (Event.prizeClaimed W A m2))
        (Event.prizeClaimed W A m3) =
      step (processTrace [Event.lotteryWon 5 W A m1]) (Event.prizeClaimed W A m2) := by
  have hscan : scanPrizes (fun kp => lotteryClaimMatch W A kp.2)
      (processTrace [Event.lotteryWon 5 W A m1]).lotteries =
      some (5, mkLotteryPrize 5 W A m1) := by
    show scanPrizes (fun kp => lotteryClaimMatch W A kp.2)
      [((5 : Int), mkLotteryPrize 5 W A m1)] = some (5, mkLotteryPrize 5 W A m1)
    simp [scanPrizes, scanDays, scanHit, List.findSome?, lookupK, lotteryClaimMatch_mk]
  have hl2 : (step (processTrace [Event.lotteryWon 5 W A m1])
      (Event.prizeClaimed W A m2)).lotteries =
      [((5 : Int),
        { mkLotteryPrize 5 W A m1 with
            claimed := true
            claimTimestamp := some m2.timestamp
            claimTxHash := some m2.txHash })] := by
    show (handlePrizeClaimed W A m2 (processTrace [Event.lotteryWon 5 W A m1])).lotteries
        = _
    rw [handlePrizeClaimed, hscan]
    exact rfl
  have ha2 : (step (processTrace [Event.lotteryWon 5 W A m1])
      (Event.prizeClaimed W A m2)).auctions = ([] : List (Int × AuctionPrize)) := by
    show (handlePrizeClaimed W A m2 (processTrace [Event.lotteryWon 5 W A m1])).auctions
        = _
    rw [handlePrizeClaimed, hscan]
    exact rfl
  refine ⟨?_, ?_, ?_⟩
  · rw [hl2]
    rfl
  · show totalLotteryClaimedOf (handlePrizeClaimed W A m2
        (processTrace [Event.lotteryWon 5 W A m1])) =
      totalLotteryClaimedOf (processTrace [Event.lotteryWon 5 W A m1]) + A
    rw [handlePrizeClaimed, hscan]
    exact rfl
  · show handlePrizeClaimed W A m3 (step (processTrace [Event.lotteryWon 5 W A m1])
        (Event.prizeClaimed W A m2)) =
      step (processTrace [Event.lotteryWon 5 W A m1]) (Event.prizeClaimed W A m2)
    rw [handlePrizeClaimed, hl2, ha2]
    rw [scanPrizes_lotteryClaim_none (by intro kp hkp; rw [List.mem_singleton.1 hkp])]
    rfl

/-! ### Mint plus fee transfer (C6) -/

/-- C6: a Minted event immediately followed by a Transfer with non-zero
source to the fee-pool address produces exactly two Transaction records —
one MINT under key 0 and one TRANSFER under key 1, two distinct
sequence-counter keys — never a single merged record. -/
theorem c6_mint_then_fee_transfer (t0 f0 : Address) (ma sa fe v : Nat)
    (m1 m2 : EventMeta) (h : f0 ≠ ADDRESS_ZERO) :
    (processTrace [Event.minted t0 ma sa fe m1,
        Event.transfer f0 FEES_POOL_ADDRESS v m2]).txs.length = 2 ∧
    (lookupK 0 (processTrace [Event.minted t0 ma sa fe m1,
        Event.transfer f0 FEES_POOL_ADDRESS v m2]).txs).map Transaction.type =
      some TxType.MINT ∧
    (lookupK 1 (processTrace [Event.minted t0 ma sa fe m1,
        Event.transfer f0 FEES_POOL_ADDRESS v m2]).txs).map Transaction.type =
      some TxType.TRANSFER := by
  have hstep : processTrace [Event.minted t0 ma sa fe m1,
      Event.transfer f0 FEES_POOL_ADDRESS v m2] =
      handleTransfer f0 FEES_POOL_ADDRESS v m2
        (handleMinted t0 ma sa fe m1 emptyStore) := rfl
  rw [hstep, handleTransfer, if_neg (by simp), if_neg h]
  refine ⟨?_, ?_, ?_⟩ <;>
    (simp only [getOrCreateUser_txs, getOrCreateProtocolStats_txs]; exact rfl)

/-- Witness for C6: a concrete mint to address 3 followed by a fee-pool
transfer from address 5. -/
theorem c6_mint_then_fee_transfer_witness :
    (processTrace [Event.minted 3 100 90 10 (mkMeta 1),
        Event.transfer 5 FEES_POOL_ADDRESS 9 (mkMeta 2)]).txs.length = 2 ∧
    (lookupK 0 (processTrace [Event.minted 3 100 90 10 (mkMeta 1),
        Event.transfer 5 FEES_POOL_ADDRESS 9 (mkMeta 2)]).txs).map Transaction.type =
      some TxType.MINT ∧
    (lookupK 1 (processTrace [Event.minted 3 100 90 10 (mkMeta 1),
        Event.transfer 5 FEES_POOL_ADDRESS 9 (mkMeta 2)]).txs).map Transaction.type =
      some TxType.TRANSFER :=
  c6_mint_then_fee_transfer 3 5 100 90 10 9 (mkMeta 1) (mkMeta 2) (by decide)

/-! ### The transfer filter (C7) -/

theorem counterOf_txs_update (s : Store) (X : List (Nat × Transaction)) :
    counterOf { s with txs := X } = counterOf s := rfl

/-- C7: a Transfer event creates a Transaction record — stored under the
fresh sequence-counter key, with type TRANSFER, the source as its user and
the transferred value as its token amount, the counter then advancing by
one — if and only if its destination is the fee-pool address and its
source is not the zero address; in every other case the handler returns
the store completely unchanged. -/
theorem c7_transfer_filter (s : Store) (f0 t0 : Address) (v : Nat) (m : EventMeta) :
    ((t0 = FEES_POOL_ADDRESS ∧ f0 ≠ ADDRESS_ZERO) →
      (lookupK (counterOf s) (step s (Event.transfer f0 t0 v m)).txs).map
          (fun tx => (tx.type, tx.user, tx.stratAmount)) =
        some (TxType.TRANSFER, f0, v) ∧
      counterOf (step s (Event.transfer f0 t0 v m)) = counterOf s + 1) ∧
    ((t0 ≠ FEES_POOL_ADDRESS ∨ f0 = ADDRESS_ZERO) →
      step s (Event.transfer f0 t0 v m) = s) := by
  constructor
  · rintro ⟨ht, hf⟩
    subst ht
    show (lookupK (counterOf s) (handleTransfer f0 FEES_POOL_ADDRESS v m s).txs).map
        (fun tx => (tx.type, tx.user, tx.stratAmount)) =
        some (TxType.TRANSFER, f0, v) ∧
      counterOf (handleTransfer f0 FEES_POOL_ADDRESS v m s) = counterOf s + 1
    rw [handleTransfer, if_neg (by simp), if_neg hf]
    constructor
    · simp only [getOrCreateUser_txs, getOrCreateProtocolStats_txs,
        getOrCreateProtocolStats_counter, counterOf_txs_update, lookupK_setK_self]
      exact rfl
    · simp only [getOrCreateUser_stats, counterOf, getOrCreateProtocolStats_counter,
        counterOf_txs_update]
  · intro h
    show handleTransfer f0 t0 v m s = s
    rw [handleTransfer]
    rcases h with h | h
    · rw [if_pos h]
    · by_cases h2 : t0 ≠ FEES_POOL_ADDRESS
      · rw [if_pos h2]
      · rw [if_neg h2, if_pos h]

/-- Witness for C7: a fee-pool transfer from address 5 on the empty store
creates the TRANSFER record under the fresh counter key, and a transfer to
a non-fee-pool address leaves the empty store unchanged. -/
theorem c7_transfer_filter_witness :
    ((lookupK (counterOf emptyStore) (step emptyStore
        (Event.transfer 5 FEES_POOL_ADDRESS 9 (mkMeta 1))).txs).map
        (fun tx => (tx.type, tx.user, tx.stratAmount)) =
      some (TxType.TRANSFER, 5, 9) ∧
      counterOf (step emptyStore (Event.transfer 5 FEES_POOL_ADDRESS 9 (mkMeta 1))) =
        counterOf emptyStore + 1) ∧
    step emptyStore (Event.transfer 5 7 9 (mkMeta 1)) = emptyStore :=
  ⟨(c7_transfer_filter emptyStore 5 FEES_POOL_ADDRESS 9 (mkMeta 1)).1
      ⟨rfl, by decide⟩,
    (c7_transfer_filter emptyStore 5 7 9 (mkMeta 1)).2 (Or.inl (by decide))⟩

end StrategySubgraph
